import Mathlib

/-!
Verification of the AESD entry store (char driver `aesd-char-driver/main.c`)
and stream server (`server/aesdsocket.c`).

The driver's circular-buffer helpers (`aesd_circular_buffer_add_entry`,
`aesd_circular_buffer_find_entry_offset_for_fpos`) are declared and called in
`main.c` but their implementation file is not part of the sources; they are
modelled from the spec (§4.2).  Everything else is translated directly from
the C sources: bytes are `Nat`, user buffers are `List Nat`, errno-style
returns are `Int`, and environment outcomes (user-buffer accessibility,
allocation success, syscall results) are explicit parameters.
-/

/-- One committed entry: an immutable byte sequence (`struct aesd_buffer_entry`,
with `size = length`). -/
abbrev Entry := List Nat

def EFAULT : Int := 14
def ENOMEM : Int := 12

/-- Modelled from the spec: `aesd_circular_buffer_add_entry` (implementation not
among the sources).  Spec §4.2: "inserts at the logical tail; if occupancy now
exceeds capacity `N`, removes and returns the oldest entry (ownership
transferred to caller); otherwise returns nothing."  Returns the new retained
sequence (arrival order) and the evicted oldest entry, if any. -/
def aesd_circular_buffer_add_entry (N : Nat) (es : List Entry) (e : Entry) :
    List Entry × Option Entry :=
  if N < es.length + 1 then (es.tail ++ [e], es.head?) else (es ++ [e], none)

/-- Modelled from the spec: `aesd_circular_buffer_find_entry_offset_for_fpos`
(implementation not among the sources).  Spec §4.2: "walks entries in arrival
order, accumulating lengths; returns the first entry whose
`[cumulative_start, cumulative_start+length)` range contains `offset`, together
with `offset - cumulative_start`; nothing if `offset >= total retained bytes`." -/
def aesd_circular_buffer_find (es : List Entry) (fpos : Nat) : Option (Entry × Nat) :=
  match es with
  | [] => none
  | e :: rest => if fpos < e.length then some (e, fpos) else aesd_circular_buffer_find rest (fpos - e.length)

/-- The driver device state relevant to read/write (`struct aesd_dev`): the
ring of retained entries and the pending accumulation `write_append`
(its logical content = the first `size` bytes of `buffptr`). -/
structure AesdDev where
  cbuf : List Entry
  write_append : List Nat
deriving DecidableEq, Repr

/-- `strchr(p, '\n') != NULL` on a byte region: C's `strchr` stops at the first
NUL byte, so the newline counts only if it appears before any 0 byte. -/
def strchrNewline (buf : List Nat) : Bool :=
  (buf.takeWhile (fun b => b != 0)).contains 10

/-- Result of one `aesd_write` call: the device state on return, the returned
value, and the arguments of every `kfree` call the function issued. -/
structure WriteResult where
  dev : AesdDev
  retval : Int
  kfreeCalls : List (Option Entry)
deriving DecidableEq, Repr

/-- `aesd_write` from `aesd-char-driver/main.c` (lines 133-212), translated
control-path by control-path.  `buf` is the user chunk (`count = buf.length`,
the `count = 0` early return included); `accessOk` is the `access_ok` outcome,
`allocOk` the `kmalloc`/`krealloc` outcome; with an accessible buffer
`copy_from_user` copies everything (`uncopied_count = 0`).  The source commits
the accumulation to the ring when `strchr(buf, '\n')` returns NULL
(line 197: `if( !strchr(buf, '\n') )`), and calls `kfree(overwritten)` only
when `overwritten` is NULL (lines 201-204: `if ( !overwritten )`). -/
def aesd_write (N : Nat) (dev : AesdDev) (buf : List Nat) (accessOk allocOk : Bool) :
    WriteResult :=
  let count := buf.length
  if count = 0 then ⟨dev, 0, []⟩
  else if !allocOk then ⟨dev, -ENOMEM, []⟩
  else if !accessOk then ⟨dev, -EFAULT, []⟩
  else
    let pending := dev.write_append ++ buf
    let retval : Int := count
    if !(strchrNewline buf) then
      let res := aesd_circular_buffer_add_entry N dev.cbuf pending
      let kcalls : List (Option Entry) := if res.2.isNone then [none] else []
      ⟨⟨res.1, pending⟩, retval, kcalls⟩
    else
      ⟨⟨dev.cbuf, pending⟩, retval, []⟩

/-- Result of one `aesd_read` call: return value, the bytes delivered into the
user buffer, and the file position on return. -/
structure ReadResult where
  retval : Int
  bytes : List Nat
  f_pos : Nat
deriving DecidableEq, Repr

/-- `aesd_read` from `aesd-char-driver/main.c` (lines 74-129), translated
control-path by control-path: the `count = 0` early return, the offset
resolution, `read_size = entry->size - read_offset` clamped to `count`, the
`access_ok` check, a fully successful `copy_to_user` when the buffer is
accessible, and the file-position advance (line 124, `*f_pos += retval`).
The device state is not mutated by the source, so none is returned. -/
def aesd_read (dev : AesdDev) (count : Nat) (f_pos : Nat) (accessOk : Bool) :
    ReadResult :=
  if count = 0 then ⟨0, [], f_pos⟩
  else
    match aesd_circular_buffer_find dev.cbuf f_pos with
    | none => ⟨0, [], f_pos⟩
    | some (entry, read_offset) =>
      let read_size := if entry.length - read_offset > count then count else entry.length - read_offset
      if !accessOk then ⟨-EFAULT, [], f_pos⟩
      else ⟨read_size, (entry.drop read_offset).take read_size, f_pos + read_size⟩

/-!
## Server (`server/aesdsocket.c`)
-/

/-- Outcome of one `write(2)` call inside `write_wrapper`: success with `n`
bytes accepted, interruption (`-1` with `errno == EINTR`), or a genuine error
(`-1` with any other `errno`). -/
inductive WriteOutcome
| ok (n : Nat)
| eintr
| fail
deriving DecidableEq, Repr

/-- Loop status of `write_wrapper` after consuming the scheduled `write`
outcomes: returned 0, returned -1, or still looping (schedule exhausted). -/
inductive WwStatus
| done
| failed
| looping
deriving DecidableEq, Repr

/-- `write_wrapper` from `server/aesdsocket.c` (lines 513-528), translated
literally over a schedule of `write(2)` outcomes.  `pos` is the offset of
`writestr` from the start of the caller's buffer and `len` the remaining
count; both are `Int` because the source updates them with the *signed*
return value of `write`: on EINTR it executes `len -= (-1); writestr += (-1)`
(lines 523-524 run on every iteration, the EINTR branch does not `continue`).
Returns the loop status together with every successful write performed, as
`(position, byte count)` pairs. -/
def write_wrapper : List WriteOutcome → Int → Int → WwStatus × List (Int × Nat)
  | [], _, len => if len = 0 then (WwStatus.done, []) else (WwStatus.looping, [])
  | ev :: rest, pos, len =>
    if len = 0 then (WwStatus.done, [])
    else
      match ev with
      | WriteOutcome.ok n =>
        let r := write_wrapper rest (pos + (n : Int)) (len - (n : Int))
        (r.1, (pos, n) :: r.2)
      | WriteOutcome.eintr => write_wrapper rest (pos - 1) (len + 1)
      | WriteOutcome.fail => (WwStatus.failed, [])

/-- The packet-accumulation loop of `connection_thread`
(`server/aesdsocket.c` lines 332-369) for one packet, over the list of chunks
`recv` delivers.  Each chunk is appended whole to `recv_buf`
(lines 357-362), then `strchr(recv_temp, '\n')` decides the break
(line 365; `recv_temp` is zero-filled, so the scan stops at the first NUL).
On break the *entire* accumulation is the packet handed to the store
(line 379 writes `recv_buf[0 .. recv_buf_nbytes)`); the next outer iteration
restarts with `recv_buf_nbytes = 0` (line 334).  Returns `none` when the
chunks end without a delimiter (peer shutdown / abort: no packet committed). -/
def assemblePacket (recvBuf : List Nat) : List (List Nat) → Option (List Nat)
  | [] => none
  | chunk :: rest =>
    if strchrNewline chunk then some (recvBuf ++ chunk)
    else assemblePacket (recvBuf ++ chunk) rest

/-- Events of the `main` shutdown path. -/
inductive ShutdownEvent
| stopAccept
| joinWorker (tid : Nat)
| joinTs
| removeBacking
deriving DecidableEq, Repr

/-- The join loop of `main` (`server/aesdsocket.c` lines 300-307): every node
of the thread registry is joined, first to last. -/
def joinAllWorkers : List Nat → List ShutdownEvent
  | [] => []
  | t :: ts => ShutdownEvent.joinWorker t :: joinAllWorkers ts

/-- The straight-line shutdown path of `main` after `global_abort` ends the
accept loop (`server/aesdsocket.c` lines 290-314): shut down and close the
listening socket, join every registered connection thread, join the timestamp
thread, then remove the backing file. -/
def mainShutdown (registry : List Nat) : List ShutdownEvent :=
  ShutdownEvent.stopAccept ::
    (joinAllWorkers registry ++ [ShutdownEvent.joinTs, ShutdownEvent.removeBacking])

/-- The events strictly before the first occurrence of `e` in `l`. -/
def eventsBefore (l : List ShutdownEvent) (e : ShutdownEvent) : List ShutdownEvent :=
  l.takeWhile (fun x => x != e)

/-- Environment of one `timestamp_thread` loop iteration: the value of
`global_abort` at the `while` test; whether the format/open/write sequence
succeeds; whether `clock_nanosleep` returns nonzero (interrupted); whether
`errno` reads `EINTR` at that moment. -/
structure TsIter where
  abortAtCheck : Bool
  appendOk : Bool
  sleepInterrupted : Bool
  errnoIsEintr : Bool
deriving DecidableEq, Repr

/-- Observable events of `timestamp_thread`. -/
inductive TsEvent
| flagCheck (abortSeen : Bool)
| append
| appendAbort
| sleepDone (interrupted : Bool) (errnoEintr : Bool)
deriving DecidableEq, Repr

/-- `timestamp_thread` from `server/aesdsocket.c` (lines 425-478) as an event
trace over an iteration schedule.  Each iteration: the `while(!global_abort)`
test (line 433; `true` ends the loop); the format/lock/open/write/unlock block
(lines 438-465; a failure exits the thread before sleeping, event
`appendAbort`); `clock_nanosleep` (line 467); then `if (rc != 0)`:
`errno == EINTR` breaks the loop (lines 468-469), otherwise it only logs and
the loop returns to the `while` test. -/
def timestamp_thread : List TsIter → List TsEvent
  | [] => []
  | it :: rest =>
    TsEvent.flagCheck it.abortAtCheck ::
      (if it.abortAtCheck then []
       else if !it.appendOk then [TsEvent.appendAbort]
       else TsEvent.append :: TsEvent.sleepDone it.sleepInterrupted it.errnoIsEintr ::
         (if it.sleepInterrupted && it.errnoIsEintr then [] else timestamp_thread rest))

/-- From the claim: an accepted trace is a sequence of iterations each opening
with an abort-flag check; a check that observes the abort flag ends the trace
with no further event; an append happens only right after a check that saw the
flag clear; the thread sleeps only after such a check-and-append; a sleep
interrupted with `errno == EINTR` ends the trace immediately. -/
def tsTraceOk : List TsEvent → Bool
  | [] => true
  | TsEvent.flagCheck true :: rest => rest.isEmpty
  | TsEvent.flagCheck false :: TsEvent.appendAbort :: rest => rest.isEmpty
  | TsEvent.flagCheck false :: TsEvent.append :: TsEvent.sleepDone i e :: rest =>
    (!(i && e) || rest.isEmpty) && tsTraceOk rest
  | _ => false

/-- From the claim: the event immediately after every sleep is either nothing
(loop exited) or an abort-flag check, and when that check observes the abort
flag nothing further happens — no remaining wait is completed and no further
append is performed. -/
def sleepFollowedByCheck : List TsEvent → Bool
  | [] => true
  | TsEvent.sleepDone _ _ :: rest =>
    (match rest with
     | [] => true
     | TsEvent.flagCheck b :: rest2 => !b || rest2.isEmpty
     | _ => false) && sleepFollowedByCheck rest
  | _ :: rest => sleepFollowedByCheck rest

/-- Lock-relative events of the server threads.  The source has a single
global `pthread_mutex_t file_lock` shared by every producer, so one `lock` /
`unlock` event type models it.  `storeAppend` is a `write_wrapper` call on the
backing file, `storeRead` a `read` of it, `peerSend` a send to the peer. -/
inductive LockEvent
| lock
| unlock
| storeAppend
| storeRead
| peerSend
deriving DecidableEq, Repr

/-- From the claim: scanning the trace with the lock-held flag `h`, every
backing-store append and read happens while the lock is held. -/
def underLock : List LockEvent → Bool → Bool
  | [], _ => true
  | LockEvent.lock :: r, _ => underLock r true
  | LockEvent.unlock :: r, _ => underLock r false
  | LockEvent.storeAppend :: r, h => h && underLock r h
  | LockEvent.storeRead :: r, h => h && underLock r h
  | LockEvent.peerSend :: r, h => underLock r h

/-- Environment of one outer `connection_thread` iteration: whether the recv
loop assembled a packet (otherwise EOF/recv error jumps to `handle_errors`),
whether `open` and the `write_wrapper` append succeed, how many chunks the
echo loop reads before its final read, and whether the echo loop finishes at
EOF without a read or send error. -/
structure ConnIter where
  packetOk : Bool
  openOk : Bool
  writeOk : Bool
  nreads : Nat
  echoOk : Bool
deriving DecidableEq, Repr

/-- The echo loop's successful chunk transfers: a backing-file read followed by
a send to the peer, `n` times. -/
def echoEvents : Nat → List LockEvent
  | 0 => []
  | n + 1 => LockEvent.storeRead :: LockEvent.peerSend :: echoEvents n

/-- `connection_thread` from `server/aesdsocket.c` (lines 321-423) as a
lock-event trace.  Per outer iteration: the recv loop (no lock events; on
EOF/error the `handle_errors` path at lines 414-421 runs `unlock` without
holding the lock — kept faithfully); `pthread_mutex_lock` (line 373); `open`
(line 374, failure jumps to `handle_errors`); the `write_wrapper` append
(line 379, failure likewise); the echo loop of reads and peer sends
(lines 389-403) ending with a final read (EOF or error); `close` and
`pthread_mutex_unlock` (lines 405-406) before the next iteration, or the
`handle_errors` unlock on an echo failure. -/
def connection_thread : List ConnIter → List LockEvent
  | [] => []
  | it :: rest =>
    if !it.packetOk then [LockEvent.unlock]
    else LockEvent.lock ::
      (if !it.openOk then [LockEvent.unlock]
       else LockEvent.storeAppend ::
         (if !it.writeOk then [LockEvent.unlock]
          else echoEvents it.nreads ++ LockEvent.storeRead ::
            (if it.echoOk then LockEvent.unlock :: connection_thread rest
             else [LockEvent.unlock])))

/-- Environment of one `timestamp_thread` iteration for the lock trace:
abort flag at the `while` test, format success (`localtime`/`strftime`,
checked before the lock), `open` success, `write_wrapper` success, and
whether the sleep breaks the loop. -/
structure TsLockIter where
  abortAtCheck : Bool
  fmtOk : Bool
  openOk : Bool
  writeOk : Bool
  sleepBreak : Bool
deriving DecidableEq, Repr

/-- `timestamp_thread` (`server/aesdsocket.c` lines 425-478) as a lock-event
trace: the format block runs before the lock (lines 438-449, failure exits the
thread); then `pthread_mutex_lock` (line 450), `open` (line 451, failure
unlocks and breaks), the `write_wrapper` append (line 457, failure closes,
unlocks and breaks), `close`/`pthread_mutex_unlock` (lines 464-465), and the
sleep, after which the loop either breaks or returns to the `while` test. -/
def timestamp_lock_trace : List TsLockIter → List LockEvent
  | [] => []
  | it :: rest =>
    if it.abortAtCheck then []
    else if !it.fmtOk then []
    else LockEvent.lock ::
      (if !it.openOk then [LockEvent.unlock]
       else LockEvent.storeAppend ::
         (if !it.writeOk then [LockEvent.unlock]
          else LockEvent.unlock :: (if it.sleepBreak then [] else timestamp_lock_trace rest)))

/-!
## Helper lemmas
-/

/-- Membership of the joined handles in the join-loop events. -/
theorem mem_joinAllWorkers (ws : List Nat) (t : Nat) (h : t ∈ ws) :
    ShutdownEvent.joinWorker t ∈ joinAllWorkers ws := by
  induction ws with
  | nil => cases h
  | cons w vs ih =>
    cases h with
    | head => exact List.mem_cons_self _ _
    | tail _ h2 => exact List.mem_cons_of_mem _ (ih h2)

/-- Scanning past the worker joins: the removal marker is the first event the
`takeWhile` scan rejects. -/
theorem takeWhile_joinAllWorkers (ts : List Nat) :
    List.takeWhile (fun x => x != ShutdownEvent.removeBacking)
      (joinAllWorkers ts ++ [ShutdownEvent.joinTs, ShutdownEvent.removeBacking]) =
      joinAllWorkers ts ++ [ShutdownEvent.joinTs] := by
  induction ts with
  | nil => decide
  | cons t ts ih =>
    simp only [joinAllWorkers, List.cons_append]
    rw [List.takeWhile_cons_of_pos (by simp), ih]

/-- The events before the backing-file removal in `mainShutdown` are exactly
the stop-accept step, the worker joins and the timestamp join. -/
theorem eventsBefore_mainShutdown (registry : List Nat) :
    eventsBefore (mainShutdown registry) ShutdownEvent.removeBacking =
      ShutdownEvent.stopAccept :: (joinAllWorkers registry ++ [ShutdownEvent.joinTs]) := by
  simp only [eventsBefore, mainShutdown]
  rw [List.takeWhile_cons_of_pos (by decide), takeWhile_joinAllWorkers]

/-- In every trace, `timestamp_thread` is empty or begins with a flag check,
and a check that saw the abort flag is the final event. -/
theorem timestamp_thread_head_shape (s : List TsIter) :
    timestamp_thread s = [] ∨
    ∃ b tail, timestamp_thread s = TsEvent.flagCheck b :: tail ∧ (b = true → tail = []) := by
  cases s with
  | nil => exact Or.inl rfl
  | cons it rest =>
    refine Or.inr ⟨it.abortAtCheck, _, rfl, ?_⟩
    intro hb
    simp [hb]

/-- Scanning the echo transfers leaves the lock-held flag at `true`. -/
theorem underLock_echoEvents (n : Nat) (r : List LockEvent) :
    underLock (echoEvents n ++ r) true = underLock r true := by
  induction n with
  | zero => rfl
  | succ k ih => simpa [echoEvents, underLock] using ih

/-!
## Claims
-/

/-- C1: the claim states that `aesd_write` commits an accumulated packet to
the ring only when a delimiter has been observed, and never commits a pending
accumulation containing no delimiter.  The source does the opposite: line 197
reads `if( !strchr(buf, '\n') )`, so the write `"abc"` (no delimiter) commits
the accumulation as an entry, while the write `"hi\n"` (delimiter present)
commits nothing. -/
theorem aesd_write_commits_entry_without_delimiter :
    (aesd_write 10 ⟨[], []⟩ [97, 98, 99] true true).dev.cbuf = [[97, 98, 99]] ∧
    strchrNewline [97, 98, 99] = false ∧
    (aesd_write 10 ⟨[], []⟩ [104, 105, 10] true true).dev.cbuf = [] ∧
    strchrNewline [104, 105, 10] = true := by decide

/-- C2: a read at an offset resolved to a retained entry returns exactly
`min count (entry.length - intra)` bytes, all taken from that single entry
starting at the intra-entry offset; a read at an offset beyond all retained
bytes returns 0 bytes with no error. -/
theorem aesd_read_single_entry_spec (dev : AesdDev) (count f_pos : Nat)
    (hc : 0 < count) :
    (∀ entry intra, aesd_circular_buffer_find dev.cbuf f_pos = some (entry, intra) →
      aesd_read dev count f_pos true =
        ⟨((min count (entry.length - intra) : Nat) : Int),
         (entry.drop intra).take (min count (entry.length - intra)),
         f_pos + min count (entry.length - intra)⟩) ∧
    (aesd_circular_buffer_find dev.cbuf f_pos = none →
      aesd_read dev count f_pos true = ⟨0, [], f_pos⟩) := by
  have hc0 : count ≠ 0 := Nat.pos_iff_ne_zero.mp hc
  constructor
  · intro entry intra hfind
    simp only [aesd_read, hc0, if_false, hfind]
    have hmin : (if entry.length - intra > count then count else entry.length - intra)
        = min count (entry.length - intra) := by
      rcases Nat.lt_or_ge count (entry.length - intra) with h | h
      · rw [if_pos h]; omega
      · rw [if_neg (by omega)]; omega
    simp [hmin]
  · intro hfind
    simp [aesd_read, hc0, hfind]

/-- Witness for C2 at a concrete store: two entries `"hi\n"`, `"w\n"`, read at
offset 1 with request length 5. -/
theorem aesd_read_single_entry_spec_witness :
    aesd_read ⟨[[104, 105, 10], [119, 10]], []⟩ 5 1 true =
      ⟨((min 5 (([104, 105, 10] : List Nat).length - 1) : Nat) : Int),
       (([104, 105, 10] : List Nat).drop 1).take (min 5 (([104, 105, 10] : List Nat).length - 1)),
       1 + min 5 (([104, 105, 10] : List Nat).length - 1)⟩ :=
  (aesd_read_single_entry_spec ⟨[[104, 105, 10], [119, 10]], []⟩ 5 1 (by decide)).1
    [104, 105, 10] 1 (by decide)

/-- C3: the claim states that after a full-ring append returns the evicted
oldest entry, the driver's write releases exactly that entry's storage, and
that nothing is freed when nothing is evicted.  In the source (lines 200-204)
`kfree(overwritten)` is guarded by `if ( !overwritten )`: with a full ring the
eviction is returned (`some [120]`) yet the list of `kfree` calls is empty,
and with a non-full ring the single `kfree` call receives NULL. -/
theorem aesd_write_leaks_evicted_entry :
    (aesd_circular_buffer_add_entry 10 (List.replicate 10 [120]) [97, 97]).2 = some [120] ∧
    (aesd_write 10 ⟨List.replicate 10 [120], []⟩ [97, 97] true true).kfreeCalls = [] ∧
    (aesd_write 10 ⟨List.replicate 10 [120], []⟩ [97, 97] true true).dev.cbuf
      = List.replicate 9 [120] ++ [[97, 97]] ∧
    (aesd_write 10 ⟨[], []⟩ [97, 97] true true).kfreeCalls = [none] := by decide

/-- C4: the claim states that `write_wrapper` writes exactly `len` bytes,
resuming short writes from the first unwritten byte and retrying EINTR
transparently.  In the source (lines 516-525) the EINTR branch does not
restart the iteration, so `len -= (-1)` and `writestr += (-1)` execute: for a
1-byte request whose first `write` is interrupted, the loop ends having issued
one successful write of 2 bytes starting at offset -1 — one byte before the
caller's buffer — instead of 1 byte at offset 0. -/
theorem write_wrapper_eintr_corrupts_resume :
    write_wrapper [WriteOutcome.eintr, WriteOutcome.ok 2] 0 1
      = (WwStatus.done, [(-1, 2)]) := by decide

/-- C5 counterexample: the claim states that on a chunk `"a\nb"` only
`"a\n"` forms the current packet and the trailing `"b"` is buffered for the
next one.  The source's recv loop appends the whole chunk before testing for
the delimiter, so the packet handed to the store is `"a\nb"`, not `"a\n"`. -/
theorem connection_packet_includes_trailing_bytes :
    assemblePacket [] [[97, 10, 98]] = some [97, 10, 98] ∧
    some ([97, 10, 98] : List Nat) ≠ some [97, 10] := by decide

/-- C5 amended: when a received chunk contains the delimiter, the packet
handed to the store is the *entire* accumulation including every trailing byte
of that chunk after the first delimiter; no byte is dropped, but the trailing
bytes belong to the current packet, and the next packet starts from an empty
accumulation (`recv_buf_nbytes = 0`), never from buffered leftovers. -/
theorem assemblePacket_commits_whole_accumulation (pending chunk : List Nat)
    (rest : List (List Nat)) (hdelim : strchrNewline chunk = true) :
    assemblePacket pending (chunk :: rest) = some (pending ++ chunk) := by
  simp [assemblePacket, hdelim]

/-- Witness for the amended C5 on the chunk `"a\nb"` followed by more input. -/
theorem assemblePacket_commits_whole_accumulation_witness :
    assemblePacket [] ([97, 10, 98] :: [[99]]) = some ([] ++ [97, 10, 98]) :=
  assemblePacket_commits_whole_accumulation [] [97, 10, 98] [[99]] (by decide)

/-- C6 counterexample: the claim states that every read supplied with an
inaccessible user buffer returns -EFAULT.  In the source the `access_ok` check
(line 116) runs only after the offset has been resolved, so a read at an
offset beyond all retained bytes returns 0 even when the buffer is
inaccessible. -/
theorem aesd_read_unresolved_offset_ignores_fault :
    aesd_read ⟨[], []⟩ 3 0 false = ⟨0, [], 0⟩ ∧ (0 : Int) ≠ -EFAULT := by decide

/-- C6 amended: a write of a nonempty chunk with an inaccessible user buffer
(and allocation succeeding) returns -EFAULT with the ring, the pending
accumulation and the kfree activity unchanged; a read whose offset resolves to
a retained entry returns -EFAULT with the file position unchanged when the
buffer is inaccessible; a read whose offset is beyond all retained bytes
returns 0 bytes with the file position unchanged whatever the buffer's
accessibility.  (`aesd_read` mutates no device state on any path.) -/
theorem aesd_fault_error_leaves_state_unchanged (N : Nat) (dev : AesdDev)
    (buf : List Nat) (count f_pos : Nat) (hbuf : buf ≠ []) (hc : 0 < count) :
    aesd_write N dev buf false true = ⟨dev, -EFAULT, []⟩ ∧
    (∀ entry intra, aesd_circular_buffer_find dev.cbuf f_pos = some (entry, intra) →
      aesd_read dev count f_pos false = ⟨-EFAULT, [], f_pos⟩) ∧
    (aesd_circular_buffer_find dev.cbuf f_pos = none →
      ∀ acc, aesd_read dev count f_pos acc = ⟨0, [], f_pos⟩) := by
  have hc0 : count ≠ 0 := Nat.pos_iff_ne_zero.mp hc
  have hbuf0 : buf.length ≠ 0 := by
    intro h; exact hbuf (List.eq_nil_of_length_eq_zero h)
  refine ⟨?_, ?_, ?_⟩
  · simp [aesd_write, hbuf0]
  · intro entry intra hfind
    simp [aesd_read, hc0, hfind]
  · intro hfind acc
    simp [aesd_read, hc0, hfind]

/-- Witness for the amended C6: a device with one entry and one pending byte,
a 2-byte write with an inaccessible buffer. -/
theorem aesd_fault_error_leaves_state_unchanged_witness :
    aesd_write 10 ⟨[[104, 10]], [97]⟩ [98, 99] false true = ⟨⟨[[104, 10]], [97]⟩, -EFAULT, []⟩ :=
  (aesd_fault_error_leaves_state_unchanged 10 ⟨[[104, 10]], [97]⟩ [98, 99] 1 0
    (by decide) (by decide)).1

/-- C7: in the `main` shutdown path the listening socket is shut down first,
every registered worker is joined and the timestamp thread is joined before
the backing file is removed, and the removal is the final step; since
`pthread_join` returns only after its thread has terminated, the backing file
is never deleted while a registered worker is still running. -/
theorem mainShutdown_joins_before_remove (registry : List Nat) :
    mainShutdown registry =
      eventsBefore (mainShutdown registry) ShutdownEvent.removeBacking
        ++ [ShutdownEvent.removeBacking] ∧
    (mainShutdown registry).head? = some ShutdownEvent.stopAccept ∧
    (∀ t, t ∈ registry →
      ShutdownEvent.joinWorker t ∈ eventsBefore (mainShutdown registry) ShutdownEvent.removeBacking) ∧
    ShutdownEvent.joinTs ∈ eventsBefore (mainShutdown registry) ShutdownEvent.removeBacking := by
  rw [eventsBefore_mainShutdown]
  refine ⟨?_, rfl, ?_, ?_⟩
  · simp [mainShutdown]
  · intro t ht
    exact List.mem_cons_of_mem _ (List.mem_append.mpr (Or.inl (mem_joinAllWorkers registry t ht)))
  · exact List.mem_cons_of_mem _ (List.mem_append.mpr (Or.inr (List.mem_singleton.mpr rfl)))

/-- Witness for C7 with two registered workers. -/
theorem mainShutdown_joins_before_remove_witness :
    ShutdownEvent.joinWorker 3 ∈ eventsBefore (mainShutdown [3, 4]) ShutdownEvent.removeBacking :=
  (mainShutdown_joins_before_remove [3, 4]).2.2.1 3 (by decide)

/-- C8: every `timestamp_thread` trace checks the abort flag at the top of
each iteration (the same check is the one before that iteration's sleep and
the one immediately after the previous iteration's wake-up); a check that
observes the flag ends the loop with no further event; after every sleep the
next event, if any, is the abort-flag check, and a sleep interrupted with
`errno == EINTR` ends the loop at once — no remaining wait is completed and no
further append is performed. -/
theorem timestamp_thread_checks_abort_around_sleep (s : List TsIter) :
    tsTraceOk (timestamp_thread s) = true ∧
    sleepFollowedByCheck (timestamp_thread s) = true := by
  induction s with
  | nil => exact ⟨rfl, rfl⟩
  | cons it rest ih =>
    obtain ⟨ih1, ih2⟩ := ih
    obtain ⟨a, ap, i, e⟩ := it
    cases a
    · cases ap
      · simp [timestamp_thread, tsTraceOk, sleepFollowedByCheck]
      · cases hie : (i && e)
        · constructor
          · simp [timestamp_thread, tsTraceOk, hie, ih1]
          · rcases timestamp_thread_head_shape rest with hsh | ⟨b, tail, hsh, hb⟩
            · simp [timestamp_thread, sleepFollowedByCheck, hie, hsh]
            · have h2 : sleepFollowedByCheck (TsEvent.flagCheck b :: tail) = true := hsh ▸ ih2
              cases b
              · simp [timestamp_thread, sleepFollowedByCheck, hie, hsh, h2]
              · have ht : tail = [] := hb rfl
                subst ht
                simp [timestamp_thread, sleepFollowedByCheck, hie, hsh]
        · simp [timestamp_thread, tsTraceOk, sleepFollowedByCheck, hie]
    · simp [timestamp_thread, tsTraceOk, sleepFollowedByCheck]

/-- Witness for C8: one completed iteration, then an iteration whose check
observes the abort flag. -/
theorem timestamp_thread_checks_abort_around_sleep_witness :
    tsTraceOk (timestamp_thread [⟨false, true, true, false⟩, ⟨true, true, false, false⟩]) = true ∧
    sleepFollowedByCheck
      (timestamp_thread [⟨false, true, true, false⟩, ⟨true, true, false, false⟩]) = true :=
  timestamp_thread_checks_abort_around_sleep
    [⟨false, true, true, false⟩, ⟨true, true, false, false⟩]

/-- C9: in every trace of a connection worker and of the periodic appender,
every append to the backing file and every whole-store read happens while the
single shared `file_lock` is held (the scan starts with the lock free). -/
theorem server_store_access_under_lock (cs : List ConnIter) (ts : List TsLockIter) :
    underLock (connection_thread cs) false = true ∧
    underLock (timestamp_lock_trace ts) false = true := by
  constructor
  · induction cs with
    | nil => rfl
    | cons it rest ih =>
      obtain ⟨pk, op, wr, n, ec⟩ := it
      cases pk
      · simp [connection_thread, underLock]
      · cases op
        · simp [connection_thread, underLock]
        · cases wr
          · simp [connection_thread, underLock]
          · cases ec
            · simp [connection_thread, underLock, underLock_echoEvents]
            · simp [connection_thread, underLock, underLock_echoEvents, ih]
  · induction ts with
    | nil => rfl
    | cons it rest ih =>
      obtain ⟨a, f, op, wr, sb⟩ := it
      cases a
      · cases f
        · simp [timestamp_lock_trace, underLock]
        · cases op
          · simp [timestamp_lock_trace, underLock]
          · cases wr
            · simp [timestamp_lock_trace, underLock]
            · cases sb
              · simp [timestamp_lock_trace, underLock, ih]
              · simp [timestamp_lock_trace, underLock]
      · simp [timestamp_lock_trace, underLock]

/-- Witness for C9: a worker that commits one packet and echoes two chunks
then loses its peer, alongside one full appender iteration followed by an
open failure. -/
theorem server_store_access_under_lock_witness :
    underLock (connection_thread [⟨true, true, true, 2, true⟩, ⟨false, true, true, 0, true⟩]) false
      = true ∧
    underLock (timestamp_lock_trace [⟨false, true, true, true, false⟩, ⟨false, true, false, true, true⟩])
      false = true :=
  server_store_access_under_lock
    [⟨true, true, true, 2, true⟩, ⟨false, true, true, 0, true⟩]
    [⟨false, true, true, true, false⟩, ⟨false, true, false, true, true⟩]

/-- C10: whenever `aesd_read` returns a nonnegative count `n`, the file
position has advanced by exactly `n` (including the successful-copy path,
line 124, and the `n = 0` returns for a zero-length request or an offset
beyond all retained bytes); on the fault path the return is negative and the
file position is unchanged. -/
theorem aesd_read_advances_f_pos_by_retval (dev : AesdDev) (count f_pos : Nat) (acc : Bool) :
    (0 ≤ (aesd_read dev count f_pos acc).retval →
      ((aesd_read dev count f_pos acc).f_pos : Int)
        = (f_pos : Int) + (aesd_read dev count f_pos acc).retval) ∧
    ((aesd_read dev count f_pos acc).retval < 0 →
      (aesd_read dev count f_pos acc).f_pos = f_pos) := by
  by_cases hc : count = 0
  · simp [aesd_read, hc]
  · cases hfind : aesd_circular_buffer_find dev.cbuf f_pos with
    | none => simp [aesd_read, hc, hfind]
    | some p =>
      obtain ⟨entry, intra⟩ := p
      cases acc
      · constructor
        · intro habs
          exfalso
          simp [aesd_read, hc, hfind, EFAULT] at habs
        · intro _
          simp [aesd_read, hc, hfind]
      · constructor
        · intro _
          simp [aesd_read, hc, hfind]
        · intro habs
          exfalso
          simp [aesd_read, hc, hfind] at habs
          omega

/-- Witness for C10 on a store with one entry, read at offset 1. -/
theorem aesd_read_advances_f_pos_by_retval_witness :
    ((aesd_read ⟨[[104, 105, 10]], []⟩ 5 1 true).f_pos : Int)
      = ((1 : Nat) : Int) + (aesd_read ⟨[[104, 105, 10]], []⟩ 5 1 true).retval :=
  (aesd_read_advances_f_pos_by_retval ⟨[[104, 105, 10]], []⟩ 5 1 true).1 (by decide)
